import Mathlib

/-!
Verification of the PAM concert-discovery pipeline.

The repository ships the React frontend (concert cards, dashboard state,
favorites toggling) while the backend pipeline (genre taxonomy, taste profile
builder, event source aggregator, matching engine, favorites persistence) is
specified in `spec.md` but its code is not part of the source tree.  Frontend
behaviour is embedded directly from the JavaScript components; the backend
operations are modelled from the specification, as marked on each definition.
All weights are rationals (ℚ), scores are integers (ℤ).
-/

namespace PAM

/-- Space test for characters, used by tag/name normalization. -/
def isSpaceChar (c : Char) : Bool := c == ' ' || c == '\t' || c == '\n' || c == '\r'

/-- Drop leading and trailing whitespace from a list of characters. -/
def trimChars (l : List Char) : List Char :=
  ((l.dropWhile isSpaceChar).reverse.dropWhile isSpaceChar).reverse

/-- Modelled from the spec: normalization applied to raw genre tags and artist
names before matching (trim whitespace, lowercase); the backend implementation
is not in the source tree. -/
def normChars (s : String) : List Char := trimChars (s.data.map Char.toLower)

/-- Decide whether `needle` occurs at the head of `haystack`. -/
def prefixChars : List Char → List Char → Bool
  | [], _ => true
  | _ :: _, [] => false
  | a :: as, b :: bs => a == b && prefixChars as bs

/-- Decide whether `needle` occurs as a contiguous substring of `haystack`. -/
def subOf (needle : List Char) : List Char → Bool
  | [] => needle.isEmpty
  | b :: bs => prefixChars needle (b :: bs) || subOf needle bs

/-- Modelled from the spec: the Genre Taxonomy's ordered list of
(keyword, root) rules, listed longest-keyword-first so specific terms win over
generic ones; the backend rule table is not in the source tree. -/
def genreRules : List (String × String) := [
  ("chamber pop", "indie"),
  ("electronic", "electronic"),
  ("synthwave", "electronic"),
  ("bluegrass", "folk"),
  ("hip hop", "hip-hop"),
  ("country", "country"),
  ("techno", "electronic"),
  ("house", "electronic"),
  ("metal", "metal"),
  ("indie", "indie"),
  ("folk", "folk"),
  ("punk", "punk"),
  ("rock", "rock"),
  ("jazz", "jazz"),
  ("soul", "soul"),
  ("pop", "pop"),
  ("rap", "hip-hop"),
  ("r&b", "soul")]

/-- Rules whose keyword occurs (case-insensitively) as a substring of the
normalized raw tag, in longest-keyword-first rule order. -/
def matchedFor (tag : String) : List (String × String) :=
  genreRules.filter (fun r => subOf r.1.data (normChars tag))

/-- A keyword is subsumed when a strictly longer kept keyword contains it. -/
def subsumedIn (kw : String) (kept : List (String × String)) : Bool :=
  kept.any (fun k => kw ≠ k.1 && subOf kw.data k.1.data)

/-- Keep only maximal matches: a generic keyword contained in an already kept
more specific keyword is dropped, so "chamber pop" wins over "pop". -/
def selectMaximal (hits : List (String × String)) : List (String × String) :=
  hits.foldl (fun acc r => if subsumedIn r.1 acc then acc else acc ++ [r]) []

/-- Modelled from the spec: `canonicalize(rawTag)` of the Genre Taxonomy, whose
backend implementation is not in the source tree.  A tag matching several rules
splits its unit contribution proportionally across the matched roots; a tag
matching no rule maps entirely to the catch-all `other` root. -/
def canonicalize (tag : String) : List (String × ℚ) :=
  let m := selectMaximal (matchedFor tag)
  if m.isEmpty then [("other", 1)]
  else m.map (fun r => (r.2, 1 / (m.length : ℚ)))

/-- Sum of the weights of a root-weight (or tag-weight) association list. -/
def totalW (l : List (String × ℚ)) : ℚ := (l.map Prod.snd).sum

/-- First weight stored under a key, `0` when the key is absent. -/
def lookupW : List (String × ℚ) → String → ℚ
  | [], _ => 0
  | (k, w) :: t, q => if k = q then w else lookupW t q

/-- Candidate concert/artist prior to scoring (spec §3 data model). -/
structure Candidate where
  artist_name : String
  genres : List String
  venue_name : String
  venue_city : String
  date : Option String
  popularity : Option ℤ
  event_id : String
deriving Repr, DecidableEq

/-- Taste profile fragment used by the pipeline claims (spec §3 data model);
audio features and the narrative are outside the modelled fragment. -/
structure TasteProfile where
  genre_map : List (String × ℚ)
  root_genre_map : List (String × ℚ)
  top_artist_names : List String
  known_artist_names : List String

/-- Candidate plus its integer match score (spec §3 `ScoredConcert`). -/
structure ScoredConcert where
  cand : Candidate
  score : ℤ
deriving Repr, DecidableEq

/-- Modelled from the spec: the Matching Engine's exclusion test (candidate
artist matching `knownArtistIds` under case/whitespace normalization); the
backend matching engine is not in the source tree. -/
def excludedArtist (p : TasteProfile) (c : Candidate) : Bool :=
  p.known_artist_names.any (fun a => normChars a == normChars c.artist_name)

/-- Root-genre vector of a candidate: all its raw tags pushed through the
taxonomy. -/
def candVec (c : Candidate) : List (String × ℚ) := (c.genres.map canonicalize).flatten

/-- Dot product of a root-weight vector against a profile root-genre map. -/
def dotW (v p : List (String × ℚ)) : ℚ := (v.map (fun e => e.2 * lookupW p e.1)).sum

/-- Modelled from the spec: normalized dot product (both vectors normalized to
total weight 1, i.e. the raw dot product divided by the product of the total
weights), `0` when either side carries no weight. -/
def normDot (v p : List (String × ℚ)) : ℚ :=
  if totalW v = 0 ∨ totalW p = 0 then 0 else dotW v p / (totalW v * totalW p)

/-- Clamp an integer into the score range [0, 100]. -/
def clampInt (z : ℤ) : ℤ := if z ≤ 0 then 0 else if 100 ≤ z then 100 else z

/-- Round a rational to the nearest integer (half up). -/
def roundQ (q : ℚ) : ℤ := ⌊q + 1 / 2⌋

/-- Modelled from the spec: the popularity-inverse-only baseline score used
when the profile's root-genre map is empty; unknown popularity falls back to a
fixed midpoint. -/
def popBaseline (c : Candidate) : ℤ :=
  match c.popularity with
  | some pop => clampInt (100 - pop)
  | none => 50

/-- Modelled from the spec: the Matching Engine score — 100 × normalized
dot-product of the candidate root-vector and `profile.rootGenreMap`, rounded
and clamped to [0,100]; the popularity-inverse baseline when the root-genre
map is empty.  The backend `matching` module is not in the source tree. -/
def matchScore (p : TasteProfile) (c : Candidate) : ℤ :=
  if p.root_genre_map.isEmpty then popBaseline c
  else clampInt (roundQ (100 * normDot (candVec c) p.root_genre_map))

/-- Sort key for ranking: descending score, then ascending date (unknown dates
last), then alphabetical artist name, as a lexicographic triple. -/
def sKey (sc : ScoredConcert) : ℤ ×ₗ (String ×ₗ String) :=
  toLex (-sc.score, toLex (sc.cand.date.getD "~", sc.cand.artist_name))

/-- Modelled from the spec: the ranking order of the Matching Engine (sort
descending by score; tie-break by ascending date, then alphabetical artist
name); the backend ranking code is not in the source tree. -/
def rankRel (a b : ScoredConcert) : Prop := sKey a ≤ sKey b

instance : DecidableRel rankRel := fun a b => inferInstanceAs (Decidable (sKey a ≤ sKey b))

instance : IsTotal ScoredConcert rankRel := ⟨fun a b => le_total (sKey a) (sKey b)⟩

instance : IsTrans ScoredConcert rankRel := ⟨fun _ _ _ hab hbc => le_trans hab hbc⟩

/-- Fixed maximum number of ranked concerts returned (spec §4.5 step 6). -/
def maxResults : ℕ := 25

/-- Modelled from the spec: filter out known artists then score the remaining
candidates; the backend matching engine is not in the source tree. -/
def scoreAll (p : TasteProfile) (cands : List Candidate) : List ScoredConcert :=
  (cands.filter (fun c => !excludedArtist p c)).map (fun c => ⟨c, matchScore p c⟩)

/-- Modelled from the spec: scored candidates sorted by the ranking order and
truncated to the output cap. -/
def rankedOutput (p : TasteProfile) (cands : List Candidate) : List ScoredConcert :=
  (List.insertionSort rankRel (scoreAll p cands)).take maxResults

/-- Ranks are 1-based and assigned at output time
(src/frontend/src/components/pam/ConcertList.js, `rank={index + 1}`). -/
def withRanks (l : List ScoredConcert) : List (ℕ × ScoredConcert) :=
  l.enum.map (fun e => (e.1 + 1, e.2))

/-- Ranked result set together with the true scanned count. -/
structure DiscoverResponse where
  concerts : List (ℕ × ScoredConcert)
  totalScanned : ℕ

/-- Modelled from the spec: `score(profile, candidates)` of the Matching
Engine, returning the capped ranked list and, separately, the true number of
candidates scanned. -/
def scoreAndRank (p : TasteProfile) (cands : List Candidate) : DiscoverResponse :=
  ⟨withRanks (rankedOutput p cands), cands.length⟩

/-- Outcome of querying one event source in one discovery request. -/
inductive SourceResult where
  | unconfigured : SourceResult
  | failed : SourceResult
  | events : List Candidate → SourceResult
deriving DecidableEq

/-- The only discovery failures that propagate to the caller (spec §7). -/
inductive DiscoverFailure where
  | locationNotFound : DiscoverFailure
  | profileMissing : DiscoverFailure
deriving DecidableEq

/-- Non-error discovery result: candidate list plus a provenance note. -/
structure DiscoverOk where
  candidates : List Candidate
  note : Option String
deriving DecidableEq

/-- A source is usable when it was configured and did not fail. -/
def usableSource : SourceResult → Bool
  | .events _ => true
  | _ => false

/-- A source with no credential configured. -/
def isUnconfigured : SourceResult → Bool
  | .unconfigured => true
  | _ => false

/-- Candidates gathered from all usable sources; failed or unconfigured
sources are skipped. -/
def collected (ss : List SourceResult) : List Candidate :=
  ss.foldr (fun s acc => match s with | .events cs => cs ++ acc | _ => acc) []

/-- Modelled from the spec: the Event Source Aggregator failure policy —
individual source failures are skipped, and total failure yields an empty
candidate list with a descriptive note code, never an exception. -/
def aggregate (ss : List SourceResult) : DiscoverOk :=
  if ss.all isUnconfigured then ⟨[], some "no_source_configured"⟩
  else if !ss.any usableSource then ⟨[], some "all_sources_failed"⟩
  else if (collected ss).isEmpty then ⟨[], some "no_events_found"⟩
  else ⟨collected ss, none⟩

/-- Modelled from the spec: `discover(...)` — a missing profile or an
unresolvable location is terminal, while source-level outcomes are absorbed by
the aggregator; the backend server routes are not in the source tree. -/
def discover (profile : Option TasteProfile) (loc : Option (ℚ × ℚ))
    (ss : List SourceResult) : Except DiscoverFailure DiscoverOk :=
  match profile with
  | none => .error .profileMissing
  | some _ =>
    match loc with
    | none => .error .locationNotFound
    | some _ => .ok (aggregate ss)

/-- State of the discovery cache with single-flight bookkeeping: completed
entries, keys with an in-flight fetch, requesters awaiting an in-flight fetch,
the log of fan-outs actually issued, and results delivered to requesters. -/
structure FlightState where
  cache : List (String × ℕ)
  inFlight : List String
  waiters : List (ℕ × String)
  fetchLog : List String
  delivered : List (ℕ × ℕ)
deriving DecidableEq

/-- First cached result stored under a key. -/
def lookupCache : List (String × ℕ) → String → Option ℕ
  | [], _ => none
  | (k, v) :: t, q => if k == q then some v else lookupCache t q

/-- Cache events: a requester asks for a key, or the in-flight fetch for a key
completes with a result. -/
inductive CacheEv where
  | request : ℕ → String → CacheEv
  | complete : String → ℕ → CacheEv

/-- Modelled from the spec: single-flight semantics of the shared discovery
cache (one in-flight fetch per key; concurrent requesters for the same key
await the same result); the backend cache service is not in the source tree.
A request for a cached key is answered immediately; a request for a key with a
fetch in flight joins the waiters; otherwise a new fan-out is logged and the
requester waits.  Completion caches the result and delivers it to every
waiter of that key. -/
def flightStep (st : FlightState) : CacheEv → FlightState
  | .request rid k =>
    match lookupCache st.cache k with
    | some v => { st with delivered := (rid, v) :: st.delivered }
    | none =>
      if st.inFlight.contains k then
        { st with waiters := (rid, k) :: st.waiters }
      else
        { st with inFlight := k :: st.inFlight
                  waiters := (rid, k) :: st.waiters
                  fetchLog := k :: st.fetchLog }
  | .complete k v =>
    { st with cache := (k, v) :: st.cache
              inFlight := st.inFlight.filter (fun k2 => !(k2 == k))
              waiters := st.waiters.filter (fun w => !(w.2 == k))
              delivered :=
                (st.waiters.filter (fun w => w.2 == k)).map (fun w => (w.1, v))
                  ++ st.delivered }

/-- The empty cache state. -/
def initFlight : FlightState := ⟨[], [], [], [], []⟩

/-- Run a sequence of cache events from a state. -/
def runFrom (st : FlightState) (evs : List CacheEv) : FlightState :=
  evs.foldl flightStep st

/-- Run a sequence of cache events from the empty cache. -/
def runFlight (evs : List CacheEv) : FlightState := runFrom initFlight evs

/-- N concurrent requests for one key, all issued before the single fetch for
that key completes with result `v`. -/
def singleKeyEvents (rids : List ℕ) (k : String) (v : ℕ) : List CacheEv :=
  rids.map (fun r => CacheEv.request r k) ++ [CacheEv.complete k v]

/-- One artist of the listening history, with rank-ordered position implied by
list order and the source's genre tags. -/
structure Artist where
  name : String
  genres : List String

/-- Number of top artists consumed by the profile builder (spec §4.3, K=50). -/
def topK : ℕ := 50

/-- Modelled from the spec: rank-decayed artist weight `1/(rank+1)`. -/
def artistWeight (rank : ℕ) : ℚ := 1 / (rank + 1)

/-- Add a weight to the entry of a key in an accumulation map. -/
def addW : List (String × ℚ) → String → ℚ → List (String × ℚ)
  | [], k, w => [(k, w)]
  | (k0, w0) :: t, k, w =>
    if k0 = k then (k0, w0 + w) :: t else (k0, w0) :: addW t k w

/-- Accumulate one artist's tags at the artist's weight. -/
def accTags (m : List (String × ℚ)) (tags : List String) (w : ℚ) :
    List (String × ℚ) :=
  tags.foldl (fun acc tag => addW acc tag w) m

/-- Modelled from the spec: accumulate `genreMap[tag] += artistWeight` over the
top-K artists of the listening history. -/
def genreMapRaw (history : List Artist) : List (String × ℚ) :=
  ((history.take topK).enum).foldl
    (fun acc e => accTags acc e.2.genres (artistWeight e.1)) []

/-- Maximum accumulated weight of a map (0 when empty). -/
def maxW (m : List (String × ℚ)) : ℚ := (m.map Prod.snd).foldr max 0

/-- Modelled from the spec: normalize by dividing by the maximum accumulated
value so the top entry has weight 1.0. -/
def normalizeByMax (m : List (String × ℚ)) : List (String × ℚ) :=
  if maxW m = 0 then m else m.map (fun e => (e.1, e.2 / maxW m))

/-- Modelled from the spec: push every (tag, weight) through the taxonomy and
sum the contributions per root. -/
def rootMapRaw (m : List (String × ℚ)) : List (String × ℚ) :=
  m.foldl
    (fun acc e =>
      (canonicalize e.1).foldl (fun acc2 r => addW acc2 r.1 (e.2 * r.2)) acc)
    []

/-- Modelled from the spec: `build(listeningHistory) → TasteProfile` of the
Taste Profile Builder (audio features and the narrative are outside the
modelled fragment); the backend builder is not in the source tree. -/
def build (history : List Artist) : TasteProfile :=
  let gm := normalizeByMax (genreMapRaw history)
  { genre_map := gm
    root_genre_map := normalizeByMax (rootMapRaw gm)
    top_artist_names := (history.take topK).map Artist.name
    known_artist_names := history.map Artist.name }

/-- Per-user profile storage. -/
def ProfileStore := String → Option TasteProfile

/-- Modelled from the spec: a rebuild replaces the user's profile wholesale
(no incremental or merge mode); the backend persistence is not in the source
tree. -/
def rebuild (s : ProfileStore) (uid : String) (history : List Artist) :
    ProfileStore :=
  fun u => if u = uid then some (build history) else s u

/-- A saved favorite: owner, immutable scored-concert snapshot, creation time
(spec §3 data model). -/
structure Favorite where
  id : ℕ
  user_id : String
  concert : ScoredConcert
  created_at : ℕ
deriving DecidableEq

/-- Backend state relevant to favorites: the live event objects produced by
discovery (indexed by position, standing in for object identity) and the
stored favorites. -/
structure Sys where
  liveEvents : List ScoredConcert
  favorites : List Favorite
deriving DecidableEq

/-- Modelled from the spec: `addFavorite` captures an immutable ScoredConcert
snapshot at save time (the frontend posts the concert by value,
src/unnamed/part_005 `api.addFavorite`); the backend persistence is not in the
source tree. -/
def addFavorite (s : Sys) (r : ℕ) (fid : ℕ) (uid : String) (t : ℕ) : Sys :=
  match s.liveEvents.get? r with
  | some c => { s with favorites := s.favorites ++ [⟨fid, uid, c, t⟩] }
  | none => s

/-- A later discovery call mutating the live event object at index `r`. -/
def mutateEvent (s : Sys) (r : ℕ) (c2 : ScoredConcert) : Sys :=
  { s with liveEvents := s.liveEvents.set r c2 }

/-- The concert fields consumed by the `ConcertCard` component
(src/unnamed/part_000); `spotify_popularity` is nullable. -/
structure ConcertView where
  artist_name : String
  event_id : String
  match_score : ℤ
  spotify_popularity : Option ℤ
deriving DecidableEq

/-- `isIndie` from src/unnamed/part_000 line 70:
`spotify_popularity !== null && spotify_popularity < 40`. -/
def isIndie (c : ConcertView) : Bool :=
  match c.spotify_popularity with
  | some p => decide (p < 40)
  | none => false

/-- The INDIE badge renders exactly when `isIndie` holds
(src/unnamed/part_000 lines 95–102). -/
def showsIndieBadge (c : ConcertView) : Bool := isIndie c

/-- The popularity value renders exactly when `spotify_popularity` is non-null
(src/unnamed/part_000 lines 159–163). -/
def showsPopularity (c : ConcertView) : Bool := c.spotify_popularity.isSome

/-- A favorites entry of the dashboard state (src/unnamed/part_006). -/
structure FavEntry where
  id : ℕ
  concert : ConcertView
deriving DecidableEq

/-- `handleFavorite` from src/unnamed/part_006 lines 126–150: when a favorite
with the concert's event id already exists it is removed (by its favorite id);
otherwise the server-created favorite holding the concert is appended. -/
def handleFavorite (favorites : List FavEntry) (concert : ConcertView)
    (freshId : ℕ) : List FavEntry :=
  if favorites.any (fun f => f.concert.event_id == concert.event_id) then
    match favorites.find? (fun f => f.concert.event_id == concert.event_id) with
    | some fav => favorites.filter (fun f => !(f.id == fav.id))
    | none => favorites
  else favorites ++ [⟨freshId, concert⟩]

/-- Event ids of the favorites state, as read by `favoriteEventIds`
(src/unnamed/part_006 line 182). -/
def eventIds (favorites : List FavEntry) : List String :=
  favorites.map (fun f => f.concert.event_id)

/-- Concrete taste profile used by the witnesses. -/
def wProfile : TasteProfile :=
  { genre_map := [("synthwave", 1)]
    root_genre_map := [("electronic", 4 / 5), ("folk", 1 / 5)]
    top_artist_names := ["The Known Band"]
    known_artist_names := ["The Known Band"] }

/-- Concrete unscored candidate used by the witnesses. -/
def wCandidate : Candidate :=
  { artist_name := "Neon Drift"
    genres := ["synthwave"]
    venue_name := "Mohawk"
    venue_city := "Austin"
    date := some "2026-03-01"
    popularity := some 12
    event_id := "ev1" }

/-- The concrete candidate of the witnesses, scored against `wProfile`. -/
def wScored : ScoredConcert := ⟨wCandidate, matchScore wProfile wCandidate⟩

/-- Concrete listening history used by the witnesses. -/
def wHistory : List Artist := [⟨"The Known Band", ["synthwave"]⟩]

/-- The empty profile store used by the witnesses. -/
def wStore : ProfileStore := fun _ => none

/-- The concrete dashboard concert view used by the C10 witness. -/
def wView : ConcertView := ⟨"Neon Drift", "ev1", 87, some 12⟩

theorem aux_sum_map_const {α : Type} (l : List α) (w : ℚ) :
    (l.map (fun _ => w)).sum = (l.length : ℚ) * w := by
  induction l with
  | nil => simp
  | cons a t ih => simp [ih]; ring

theorem aux_foldl_keeps_length (l : List (String × String))
    (acc : List (String × String)) :
    acc.length ≤
      (l.foldl (fun acc r => if subsumedIn r.1 acc then acc else acc ++ [r])
        acc).length := by
  induction l generalizing acc with
  | nil => simp
  | cons r t ih =>
    refine le_trans ?_ (ih (if subsumedIn r.1 acc then acc else acc ++ [r]))
    by_cases h : subsumedIn r.1 acc = true
    · simp [h]
    · simp [h]

theorem aux_selectMaximal_ne_nil (hits : List (String × String))
    (h : hits ≠ []) : selectMaximal hits ≠ [] := by
  cases hits with
  | nil => exact absurd rfl h
  | cons r t =>
    have h1 : subsumedIn r.1 [] = false := by simp [subsumedIn]
    have : selectMaximal (r :: t) =
        t.foldl (fun acc x => if subsumedIn x.1 acc then acc else acc ++ [x])
          [r] := by
      simp [selectMaximal, h1]
    rw [this]
    intro hnil
    have := aux_foldl_keeps_length t [r]
    rw [hnil] at this
    simp at this

/-- Claim C3: `canonicalize` is total and deterministic — being a pure Lean
function, identical input yields identical output definitionally — and for
every raw tag it returns a non-empty root-weight list whose weights sum to
1, a tag matching several rules splitting its contribution proportionally
(equal shares of 1) across the maximal matched roots, and a tag matching no
rule mapping entirely to the catch-all `other` root. -/
theorem canonicalize_spec (tag : String) :
    canonicalize tag ≠ [] ∧
    totalW (canonicalize tag) = 1 ∧
    (matchedFor tag = [] → canonicalize tag = [("other", 1)]) ∧
    (∀ e ∈ canonicalize tag, selectMaximal (matchedFor tag) ≠ [] →
      e.2 = 1 / ((selectMaximal (matchedFor tag)).length : ℚ)) := by
  by_cases hm : (selectMaximal (matchedFor tag)).isEmpty = true
  · have hc : canonicalize tag = [("other", 1)] := by
      simp only [canonicalize]
      rw [if_pos hm]
    refine ⟨by simp [hc], by simp [hc, totalW], fun _ => hc, ?_⟩
    intro e he hne
    rw [List.isEmpty_iff] at hm
    exact absurd hm hne
  · have hne : selectMaximal (matchedFor tag) ≠ [] := by
      intro h
      rw [h] at hm
      exact hm rfl
    have hc : canonicalize tag =
        (selectMaximal (matchedFor tag)).map
          (fun r => (r.2, 1 / ((selectMaximal (matchedFor tag)).length : ℚ))) := by
      simp only [canonicalize]
      rw [if_neg hm]
    have hlen : ((selectMaximal (matchedFor tag)).length : ℚ) ≠ 0 := by
      exact_mod_cast fun h =>
        hne (List.length_eq_zero.mp (by exact_mod_cast h))
    refine ⟨?_, ?_, ?_, ?_⟩
    · rw [hc]
      simp [hne]
    · rw [hc, totalW, List.map_map]
      have : (Prod.snd ∘ fun r : String × String =>
          (r.2, 1 / ((selectMaximal (matchedFor tag)).length : ℚ))) =
          fun _ => 1 / ((selectMaximal (matchedFor tag)).length : ℚ) := rfl
      rw [this, aux_sum_map_const]
      field_simp
    · intro h0
      exfalso
      apply hne
      rw [h0]
      rfl
    · intro e he _
      rw [hc] at he
      obtain ⟨r, _, hr⟩ := List.mem_map.mp he
      rw [← hr]

/-- Witness for C3 at concrete tags: a matching tag and an unmatched tag. -/
theorem canonicalize_spec_witness :
    canonicalize "synthwave" ≠ [] ∧ totalW (canonicalize "synthwave") = 1 ∧
    canonicalize "xylophone core" = [("other", 1)] :=
  ⟨(canonicalize_spec "synthwave").1, (canonicalize_spec "synthwave").2.1,
   (canonicalize_spec "xylophone core").2.2.1 (by decide)⟩

theorem aux_clampInt_nonneg (z : ℤ) : 0 ≤ clampInt z := by
  unfold clampInt
  split_ifs <;> omega

theorem aux_clampInt_le (z : ℤ) : clampInt z ≤ 100 := by
  unfold clampInt
  split_ifs <;> omega

/-- Claim C1: for a profile with a non-empty root-genre map and a non-excluded
candidate, the Matching Engine score is 100 × the normalized dot product of
the candidate's canonicalized root-genre vector with `profile.rootGenreMap`,
rounded and clamped to [0, 100], emitted as an integer; for a profile whose
root-genre map is empty the score is the popularity-inverse baseline. -/
theorem matchScore_spec (p : TasteProfile) (c : Candidate)
    (hne : p.root_genre_map ≠ []) (hexc : excludedArtist p c = false) :
    matchScore p c =
      clampInt (roundQ (100 * normDot (candVec c) p.root_genre_map)) ∧
    0 ≤ matchScore p c ∧ matchScore p c ≤ 100 ∧
    (∀ q : TasteProfile, q.root_genre_map = [] →
      matchScore q c = popBaseline c) := by
  have hie : p.root_genre_map.isEmpty = false := by
    cases h : p.root_genre_map with
    | nil => exact absurd h hne
    | cons a t => rfl
  have hval : matchScore p c =
      clampInt (roundQ (100 * normDot (candVec c) p.root_genre_map)) := by
    unfold matchScore
    rw [hie]
    rfl
  refine ⟨hval, ?_, ?_, ?_⟩
  · rw [hval]; exact aux_clampInt_nonneg _
  · rw [hval]; exact aux_clampInt_le _
  · intro q hq
    unfold matchScore
    rw [hq]
    rfl

/-- Witness for C1 at a concrete profile and candidate. -/
theorem matchScore_spec_witness :
    matchScore wProfile wCandidate =
      clampInt (roundQ (100 * normDot (candVec wCandidate)
        wProfile.root_genre_map)) ∧
    0 ≤ matchScore wProfile wCandidate ∧
    matchScore wProfile wCandidate ≤ 100 :=
  ⟨(matchScore_spec wProfile wCandidate (by simp [wProfile]) (by decide)).1,
   (matchScore_spec wProfile wCandidate (by simp [wProfile]) (by decide)).2.1,
   (matchScore_spec wProfile wCandidate (by simp [wProfile])
     (by decide)).2.2.1⟩

theorem aux_withRanks_fst (l : List ScoredConcert) :
    (withRanks l).map Prod.fst = (List.range l.length).map (fun n => n + 1) := by
  unfold withRanks
  rw [List.map_map]
  have h : (Prod.fst ∘ fun e : ℕ × ScoredConcert => (e.1 + 1, e.2)) =
      (fun n => n + 1) ∘ Prod.fst := rfl
  rw [h, ← List.map_map, List.enum_map_fst]

theorem aux_rankRel_iff (a b : ScoredConcert) :
    rankRel a b ↔
      (b.score < a.score ∨ (a.score = b.score ∧
        (a.cand.date.getD "~" < b.cand.date.getD "~" ∨
          (a.cand.date.getD "~" = b.cand.date.getD "~" ∧
            a.cand.artist_name ≤ b.cand.artist_name)))) := by
  unfold rankRel sKey
  rw [Prod.Lex.le_iff, Prod.Lex.le_iff]
  simp only [neg_lt_neg_iff, neg_inj]

/-- Claim C2: the ranked output is sorted by descending score with ties broken
by ascending date then alphabetical artist name (the meaning of `rankRel` is
spelled out in the final conjunct), the output is truncated to the fixed
maximum of 25, ranks are assigned 1-based at output time, and the true number
of candidates scanned is reported separately from the truncated list. -/
theorem ranking_spec (p : TasteProfile) (cands : List Candidate) :
    List.Sorted rankRel (rankedOutput p cands) ∧
    (rankedOutput p cands).length ≤ maxResults ∧
    (scoreAndRank p cands).concerts.map Prod.fst =
      (List.range (rankedOutput p cands).length).map (fun n => n + 1) ∧
    (scoreAndRank p cands).totalScanned = cands.length ∧
    (∀ a b : ScoredConcert, rankRel a b ↔
      (b.score < a.score ∨ (a.score = b.score ∧
        (a.cand.date.getD "~" < b.cand.date.getD "~" ∨
          (a.cand.date.getD "~" = b.cand.date.getD "~" ∧
            a.cand.artist_name ≤ b.cand.artist_name))))) := by
  refine ⟨?_, ?_, ?_, rfl, aux_rankRel_iff⟩
  · exact List.Pairwise.sublist (List.take_sublist _ _)
      (List.sorted_insertionSort rankRel _)
  · unfold rankedOutput
    rw [List.length_take]
    exact min_le_left _ _
  · exact aux_withRanks_fst _

/-- Claim C4: no candidate whose artist matches the profile's known artists
under case/whitespace normalization ever appears in the scored output. -/
theorem exclusion_spec (p : TasteProfile) (cands : List Candidate)
    (sc : ScoredConcert) (hmem : sc ∈ rankedOutput p cands) :
    excludedArtist p sc.cand = false := by
  have h1 : sc ∈ List.insertionSort rankRel (scoreAll p cands) :=
    List.mem_of_mem_take hmem
  have h2 : sc ∈ scoreAll p cands :=
    (List.perm_insertionSort rankRel _).mem_iff.mp h1
  unfold scoreAll at h2
  obtain ⟨c, hc, rfl⟩ := List.mem_map.mp h2
  have h3 := List.of_mem_filter hc
  simpa using h3

/-- Witness for C4: the sole surviving candidate of a concrete run is not a
known artist. -/
theorem exclusion_spec_witness : excludedArtist wProfile wCandidate = false :=
  exclusion_spec wProfile [wCandidate] wScored (List.mem_cons_self _ _)

/-- Claim C5: once the profile exists and the location resolves, `discover`
never surfaces a source-level failure as an exception — it returns an `ok`
aggregate for every source outcome; when every source yields nothing the
candidate list is empty with one of the three descriptive note codes; and the
only failures that propagate to the caller are `LocationNotFound` and
`ProfileMissing`. -/
theorem discover_failure_policy (p : Option TasteProfile) (l : Option (ℚ × ℚ))
    (ss : List SourceResult) (hp : p.isSome = true) (hl : l.isSome = true)
    (hfail : collected ss = []) :
    (∀ ss2 : List SourceResult, discover p l ss2 = .ok (aggregate ss2)) ∧
    (aggregate ss).candidates = [] ∧
    ((aggregate ss).note = some "no_source_configured" ∨
      (aggregate ss).note = some "all_sources_failed" ∨
      (aggregate ss).note = some "no_events_found") ∧
    (∀ (p2 : Option TasteProfile) (l2 : Option (ℚ × ℚ))
        (ss2 : List SourceResult) (e : DiscoverFailure),
      discover p2 l2 ss2 = .error e →
        e = DiscoverFailure.profileMissing ∨
          e = DiscoverFailure.locationNotFound) := by
  refine ⟨?_, ?_, ?_, ?_⟩
  · intro ss2
    cases p with
    | none => simp at hp
    | some prof =>
      cases l with
      | none => simp at hl
      | some loc => rfl
  · unfold aggregate
    split_ifs <;> simp [hfail]
  · unfold aggregate
    split_ifs with h1 h2 h3
    · simp
    · simp
    · simp
    · exfalso
      rw [List.isEmpty_iff] at h3
      exact h3 hfail
  · intro p2 l2 ss2 e h
    cases p2 with
    | none =>
      left
      unfold discover at h
      exact (Except.error.injEq _ _).mp h.symm
    | some prof =>
      cases l2 with
      | none =>
        right
        unfold discover at h
        exact (Except.error.injEq _ _).mp h.symm
      | some loc =>
        exfalso
        unfold discover at h
        simp at h

/-- Witness for C5: one configured-but-failed source, concrete profile and
location. -/
theorem discover_failure_policy_witness :
    discover (some wProfile) (some (30, -97)) [SourceResult.failed] =
      Except.ok (aggregate [SourceResult.failed]) ∧
    (aggregate [SourceResult.failed]).candidates = [] ∧
    ((aggregate [SourceResult.failed]).note = some "no_source_configured" ∨
      (aggregate [SourceResult.failed]).note = some "all_sources_failed" ∨
      (aggregate [SourceResult.failed]).note = some "no_events_found") := by
  have h := discover_failure_policy (some wProfile) (some (30, -97))
    [SourceResult.failed] rfl rfl rfl
  exact ⟨h.1 [SourceResult.failed], h.2.1, h.2.2.1⟩

theorem aux_requests_join (k : String) (rids : List ℕ) (st : FlightState)
    (hin : k ∈ st.inFlight)
    (hc : lookupCache st.cache k = none) :
    runFrom st (rids.map (fun r => CacheEv.request r k)) =
      { st with waiters := (rids.reverse.map (fun r => (r, k))) ++ st.waiters } := by
  induction rids generalizing st with
  | nil => simp [runFrom]
  | cons r t ih =>
    have hstep : flightStep st (CacheEv.request r k) =
        { st with waiters := (r, k) :: st.waiters } := by
      simp [flightStep, hc, hin]
    have hrec := ih { st with waiters := (r, k) :: st.waiters } hin hc
    unfold runFrom at hrec ⊢
    rw [List.map_cons, List.foldl_cons, hstep, hrec]
    simp [List.map_append]

/-- Claim C6: N concurrent discovery requests for one cache key, all issued
before any completes, trigger exactly one underlying source fan-out, and every
requester receives the result of that single in-flight fetch. -/
theorem single_flight (rids : List ℕ) (k : String) (v : ℕ) (hne : rids ≠ []) :
    ((runFlight (singleKeyEvents rids k v)).fetchLog.count k = 1) ∧
    (∀ r ∈ rids, (r, v) ∈ (runFlight (singleKeyEvents rids k v)).delivered) := by
  cases rids with
  | nil => exact absurd rfl hne
  | cons r0 rest =>
    have hws : ∀ w ∈ (rest.reverse.map (fun r => (r, k))) ++ [(r0, k)],
        (w.2 == k) = true := by
      intro w hw
      rcases List.mem_append.mp hw with h | h
      · obtain ⟨r, _, rfl⟩ := List.mem_map.mp h
        exact beq_self_eq_true k
      · rw [List.mem_singleton.mp h]
        exact beq_self_eq_true k
    have haux := aux_requests_join k rest ⟨[], [k], [(r0, k)], [k], []⟩
      (by simp) rfl
    have hrun : runFlight (singleKeyEvents (r0 :: rest) k v) =
        flightStep (runFrom ⟨[], [k], [(r0, k)], [k], []⟩
          (rest.map (fun r => CacheEv.request r k))) (CacheEv.complete k v) := by
      unfold runFlight singleKeyEvents runFrom
      rw [List.map_cons, List.cons_append, List.foldl_cons, List.foldl_append]
      rfl
    rw [haux] at hrun
    have h3 : ((rest.reverse.map (fun r => (r, k))) ++ [(r0, k)]).filter
        (fun w => (w.2 == k)) =
        (rest.reverse.map (fun r => (r, k))) ++ [(r0, k)] :=
      List.filter_eq_self.mpr (by intro a ha; exact hws a ha)
    have hlog : (runFlight (singleKeyEvents (r0 :: rest) k v)).fetchLog = [k] := by
      rw [hrun]
      rfl
    have hdel : (runFlight (singleKeyEvents (r0 :: rest) k v)).delivered =
        ((rest.reverse.map (fun r => (r, k))) ++ [(r0, k)]).map
          (fun w => (w.1, v)) := by
      rw [hrun]
      simp only [flightStep]
      rw [h3]
      simp
    constructor
    · rw [hlog]
      simp
    · intro r hr
      rw [hdel]
      rcases List.mem_cons.mp hr with h | h
      · subst h
        simp
      · simp only [List.map_append, List.map_map]
        apply List.mem_append.mpr
        left
        apply List.mem_map.mpr
        exact ⟨r, List.mem_reverse.mpr h, rfl⟩

/-- Witness for C6: three concurrent requests for one concrete key. -/
theorem single_flight_witness :
    ((runFlight (singleKeyEvents [1, 2, 3] "austin|25|electronic" 42)).fetchLog.count
      "austin|25|electronic" = 1) ∧
    (1, 42) ∈ (runFlight (singleKeyEvents [1, 2, 3] "austin|25|electronic" 42)).delivered :=
  ⟨(single_flight [1, 2, 3] "austin|25|electronic" 42 (by simp)).1,
   (single_flight [1, 2, 3] "austin|25|electronic" 42 (by simp)).2 1 (by simp)⟩

/-- Claim C7: rebuilding from identical listening history is idempotent and
deterministic — the derived root-genre map depends only on the input — and a
rebuild replaces the stored profile wholesale, independently of whatever
profile was stored before (no incremental or merge mode). -/
theorem rebuild_idempotent (s s1 s2 : ProfileStore) (uid : String)
    (history : List Artist) :
    rebuild (rebuild s uid history) uid history = rebuild s uid history ∧
    rebuild s1 uid history uid = rebuild s2 uid history uid ∧
    rebuild s uid history uid = some (build history) ∧
    (∀ hist2 : List Artist, hist2 = history →
      (build hist2).root_genre_map = (build history).root_genre_map) := by
  refine ⟨?_, ?_, ?_, ?_⟩
  · funext u
    unfold rebuild
    by_cases h : u = uid <;> simp [h]
  · unfold rebuild
    simp
  · unfold rebuild
    simp
  · intro hist2 h
    rw [h]

/-- Witness for C7 at a concrete store, user and history. -/
theorem rebuild_idempotent_witness :
    rebuild (rebuild wStore "u1" wHistory) "u1" wHistory =
      rebuild wStore "u1" wHistory ∧
    rebuild wStore "u1" wHistory "u1" = some (build wHistory) ∧
    (build wHistory).root_genre_map = (build wHistory).root_genre_map :=
  ⟨(rebuild_idempotent wStore wStore wStore "u1" wHistory).1,
   (rebuild_idempotent wStore wStore wStore "u1" wHistory).2.2.1,
   (rebuild_idempotent wStore wStore wStore "u1" wHistory).2.2.2 wHistory rfl⟩

/-- Claim C8: a favorite saved by `addFavorite` stores an immutable snapshot
of the scored concert taken at save time — mutating the live event object
afterwards changes no field of the stored favorite. -/
theorem favorite_snapshot (s : Sys) (r fid : ℕ) (uid : String) (t : ℕ)
    (c c2 : ScoredConcert) (hc : s.liveEvents.get? r = some c) :
    (mutateEvent (addFavorite s r fid uid t) r c2).favorites =
      s.favorites ++ [⟨fid, uid, c, t⟩] ∧
    Favorite.mk fid uid c t ∈
      (mutateEvent (addFavorite s r fid uid t) r c2).favorites := by
  have h1 : addFavorite s r fid uid t =
      { s with favorites := s.favorites ++ [⟨fid, uid, c, t⟩] } := by
    unfold addFavorite
    rw [hc]
  constructor
  · rw [h1]
    rfl
  · rw [h1]
    simp [mutateEvent]

/-- Witness for C8: save a favorite then overwrite the live event. -/
theorem favorite_snapshot_witness :
    Favorite.mk 1 "u1" ⟨wCandidate, 87⟩ 5 ∈
      (mutateEvent (addFavorite ⟨[⟨wCandidate, 87⟩], []⟩ 0 1 "u1" 5) 0
        ⟨wCandidate, 12⟩).favorites :=
  (favorite_snapshot ⟨[⟨wCandidate, 87⟩], []⟩ 0 1 "u1" 5 ⟨wCandidate, 87⟩
    ⟨wCandidate, 12⟩ rfl).2

/-- Claim C9: the INDIE badge is displayed iff `spotify_popularity` is
non-null and strictly below the hardcoded threshold 40; a concert with null
popularity is never labeled indie and never shows a popularity value. -/
theorem indie_badge_spec (c : ConcertView) :
    (showsIndieBadge c = true ↔
      ∃ p, c.spotify_popularity = some p ∧ p < 40) ∧
    (c.spotify_popularity = none →
      showsIndieBadge c = false ∧ showsPopularity c = false) := by
  constructor
  · cases h : c.spotify_popularity with
    | none => simp [showsIndieBadge, isIndie, h]
    | some p => simp [showsIndieBadge, isIndie, h]
  · intro h
    simp [showsIndieBadge, isIndie, showsPopularity, h]

/-- Witness for C9: a concert with unknown popularity shows neither the badge
nor a popularity value. -/
theorem indie_badge_spec_witness :
    showsIndieBadge ⟨"Quiet Voice", "ev9", 80, none⟩ = false ∧
    showsPopularity ⟨"Quiet Voice", "ev9", 80, none⟩ = false :=
  (indie_badge_spec ⟨"Quiet Voice", "ev9", 80, none⟩).2 rfl

/-- Claim C10: when a favorite with the concert's event id already exists,
the favorite action removes that favorite instead of adding another one (the
result is a sublist, the found favorite is gone); when none exists the
concert is appended; and distinctness of event ids in the favorites state is
preserved by the action. -/
theorem favorite_toggle (favs : List FavEntry) (c : ConcertView) (fid : ℕ) :
    (∀ fav, favs.find? (fun f => f.concert.event_id == c.event_id) = some fav →
      handleFavorite favs c fid = favs.filter (fun f => !(f.id == fav.id)) ∧
      fav ∉ handleFavorite favs c fid ∧
      (handleFavorite favs c fid).Sublist favs) ∧
    (favs.any (fun f => f.concert.event_id == c.event_id) = false →
      handleFavorite favs c fid = favs ++ [⟨fid, c⟩]) ∧
    ((eventIds favs).Nodup → (eventIds (handleFavorite favs c fid)).Nodup) := by
  refine ⟨?_, ?_, ?_⟩
  · intro fav hfind
    have hp := List.find?_some hfind
    have hmem := List.mem_of_find?_eq_some hfind
    have hany : favs.any (fun f => f.concert.event_id == c.event_id) = true :=
      List.any_eq_true.mpr ⟨fav, hmem, hp⟩
    have heq : handleFavorite favs c fid =
        favs.filter (fun f => !(f.id == fav.id)) := by
      simp [handleFavorite, hany, hfind]
    refine ⟨heq, ?_, ?_⟩
    · rw [heq]
      intro hin
      have h2 := (List.mem_filter.mp hin).2
      simp at h2
    · rw [heq]
      exact List.filter_sublist _
  · intro hany
    simp [handleFavorite, hany]
  · intro hnd
    by_cases hany : favs.any (fun f => f.concert.event_id == c.event_id) = true
    · obtain ⟨x, hx, hpx⟩ := List.any_eq_true.mp hany
      have hsome : ∃ fav, favs.find?
          (fun f => f.concert.event_id == c.event_id) = some fav := by
        cases hf : favs.find? (fun f => f.concert.event_id == c.event_id) with
        | none =>
          exfalso
          exact absurd hpx (by simpa using List.find?_eq_none.mp hf x hx)
        | some fav => exact ⟨fav, rfl⟩
      obtain ⟨fav, hfind⟩ := hsome
      have heq : handleFavorite favs c fid =
          favs.filter (fun f => !(f.id == fav.id)) := by
        simp [handleFavorite, hany, hfind]
      rw [heq]
      exact List.Nodup.sublist
        (List.Sublist.map _ (List.filter_sublist _)) hnd
    · have hany2 : favs.any (fun f => f.concert.event_id == c.event_id) = false := by
        simpa using hany
      have hno : ∀ f ∈ favs, ¬(f.concert.event_id == c.event_id) = true :=
        fun f hf hpf => hany (List.any_eq_true.mpr ⟨f, hf, hpf⟩)
      have heq : handleFavorite favs c fid = favs ++ [⟨fid, c⟩] := by
        simp [handleFavorite, hany2]
      rw [heq]
      unfold eventIds
      rw [List.map_append]
      refine List.nodup_append.mpr ⟨hnd, List.nodup_singleton _, ?_⟩
      intro a ha hb
      simp only [List.map_cons, List.map_nil, List.mem_singleton] at hb
      rw [hb] at ha
      obtain ⟨f, hf, hfe⟩ := List.mem_map.mp ha
      exact hno f hf (by simp [hfe])

/-- Witness for C10: toggling an already saved concert removes it, and
distinct event ids are preserved. -/
theorem favorite_toggle_witness :
    (⟨1, wView⟩ : FavEntry) ∉ handleFavorite [⟨1, wView⟩] wView 5 ∧
    (eventIds (handleFavorite [⟨1, wView⟩] wView 5)).Nodup :=
  ⟨((favorite_toggle [⟨1, wView⟩] wView 5).1 ⟨1, wView⟩ (by decide)).2.1,
   (favorite_toggle [⟨1, wView⟩] wView 5).2.2 (by decide)⟩

end PAM
